import Mathlib

/-!
Verification development for the megu-gfycat plugin.

This file gives a shallow embedding of the plugin's data model and the
operations relevant to its specification: the static content-variant table
(constants.py), the content-id builder (utils.py), the URL pattern matching
(constants.py / helpers.py, embedded as a small backtracking matcher with
Python `re` semantics for the two concrete patterns), the API strategy
(api.py), the guesswork strategy (guesswork.py), the strategy selector
(helpers.py) and the single-artifact manifest merge (plugins/basic.py).

Network and filesystem effects are abstracted as explicit inputs/outputs:
HTTP responses become values passed in, the token cache becomes explicit
state, file renames become a returned list of (source, target) pairs, and
iterators become lists (the claims under study concern fully consumed
iterators).
-/

namespace Gfy

/-- Error taxonomy of the plugin.  In the Python source every one of these is
a `ValueError` or `RuntimeError` raised at a distinct site; the constructors
record which site raised. -/
inductive MeguError where
  | authError
  | fetchError
  | parseError
  | invalidInput
  | configError
  | validationError
deriving DecidableEq, Repr

/-- HTTP method of a resource descriptor (megu's `HttpMethod`). -/
inductive HttpMethod where
  | GET
  | HEAD
  | POST
deriving DecidableEq, Repr

/-- megu's `HttpResource`: one HTTP request needed to fetch a content. -/
structure HttpResource where
  method : HttpMethod
  url : String
deriving DecidableEq, Repr

/-- megu's `Meta`: item metadata attached to a content.  Fields other than
`id` default to `none`; the guesswork strategy populates only `id`. -/
structure Meta where
  id : String
  description : Option String := none
  publisher : Option String := none
  published_at : Option Int := none
  thumbnail : Option String := none
deriving DecidableEq, Repr

/-- api.py `GfycatContent`: one entry of the payload's `content_urls` map. -/
structure GfycatContent where
  url : String
  size : Nat
  width : Nat
  height : Nat
deriving DecidableEq, Repr

/-- api.py `GfycatItem`, restricted to the fields the code reads.  The
`content_urls` dictionary is embedded as a partial map from type key to
content data. -/
structure GfycatItem where
  gfyId : String
  createDate : Int
  description : String
  username : String
  posterUrl : String
  content_urls : String → Option GfycatContent

/-- api.py `GfycatResponse`: payload of a successful item request. -/
structure GfycatResponse where
  gfyItem : GfycatItem

/-- api.py `AuthResponse`: payload of the OAuth token endpoint.  `expires_in`
is optional because the code defends against its absence. -/
structure AuthResponse where
  token_type : String
  scope : String
  expires_in : Option Nat
  access_token : String

/-- megu's `Content`: one fetchable unit produced by the strategies.
`quality` is embedded as a rational number.  `extra` carries the raw API
response in the API strategy and is absent in the guesswork strategy. -/
structure Content where
  id : String
  url : String
  size : Nat
  type : String
  quality : ℚ
  resources : List HttpResource
  meta : Meta
  extra : Option GfycatResponse := none

/-! ## constants.py -/

/-- Environment configuration names (constants.py). -/
def ENV_API_ENABLED : String := "MEGU_GFYCAT_API_ENABLED"

/-- Environment name of the API client id (constants.py). -/
def ENV_API_TOKEN : String := "MEGU_GFYCAT_API_TOKEN"

/-- Environment name of the API client secret (constants.py). -/
def ENV_API_SECRET : String := "MEGU_GFYCAT_API_SECRET"

/-- constants.py `ContentEntry`. -/
structure ContentEntry where
  name : String
  type : String
  extension : String
  mimetype : String
  quality : ℚ
  url_template : String
deriving DecidableEq, Repr

/-- constants.py `CONTENT_ENTRIES`: the 5-entry static variant table, in
source order. -/
def CONTENT_ENTRIES : List ContentEntry :=
  [ { name := "MP4 Video"
      type := "mp4"
      extension := ".mp4"
      mimetype := "video/mp4"
      quality := 1.0
      url_template := "https://giant.gfycat.com/\x7bid\x7d.mp4" },
    { name := "WEBM Video"
      type := "webm"
      extension := ".webm"
      mimetype := "video/webm"
      quality := 0.5
      url_template := "https://giant.gfycat.com/\x7bid\x7d.webm" },
    { name := "5MB Gif Image"
      type := "max5mbGif"
      extension := ".gif"
      mimetype := "image/gif"
      quality := 0.25
      url_template := "https://thumbs.gfycat.com/\x7bid\x7d-size_restricted.gif" },
    { name := "2MB Gif Image"
      type := "max2mbGif"
      extension := ".gif"
      mimetype := "image/gif"
      quality := 0.10
      url_template := "https://thumbs.gfycat.com/\x7bid\x7d-small.gif" },
    { name := "1MB Gift Image"
      type := "max1mbGif"
      extension := ".gif"
      mimetype := "image/gif"
      quality := 0.05
      url_template := "https://thumbs.gfycat.com/\x7bid\x7d-max-1mb.gif" } ]

/-- constants.py `GFYCAT_URL_TEMPLATE` (the `!s` conversion of the original
replacement field is part of the literal placeholder text). -/
def GFYCAT_URL_TEMPLATE : String := "https://gfycat.com/\x7bid!s\x7d"

/-! ## Template formatting (Python `str.format` with a single named field) -/

/-- Strip a literal off the front of a character list, returning the rest. -/
def stripPre : List Char → List Char → Option (List Char)
  | [], s => some s
  | _ :: _, [] => none
  | c :: t, d :: s => if c = d then stripPre t s else none

theorem stripPre_eq_append : ∀ (t s s' : List Char), stripPre t s = some s' → s = t ++ s'
  | [], s, s', h => by simpa [stripPre] using h
  | c :: t, [], s', h => by simp [stripPre] at h
  | c :: t, d :: s, s', h => by
    simp only [stripPre] at h
    split at h
    · next heq => simpa [heq] using stripPre_eq_append t s s' h
    · exact absurd h (by simp)

/-- Fuelled single-pass replacement of every occurrence of `pat` by `rep`,
scanning left to right; this is Python `str.format`'s behaviour on a template
whose only replacement field text is `pat`. -/
def pyFormatAux (pat rep : List Char) : Nat → List Char → List Char
  | 0, s => s
  | _ + 1, [] => []
  | fuel + 1, c :: rest =>
    match stripPre pat (c :: rest) with
    | some rest' =>
      if pat.isEmpty then c :: rest else rep ++ pyFormatAux pat rep fuel rest'
    | none => c :: pyFormatAux pat rep fuel rest

/-- Python `template.format(id=value)` for the templates of this code base,
whose only replacement field is the one named `id` (written `\x7bid\x7d`). -/
def formatTemplate (template value : String) : String :=
  ⟨pyFormatAux "\x7bid\x7d".data value.data template.data.length template.data⟩

/-- Python `GFYCAT_URL_TEMPLATE.format(id=value)`; the replacement field of
that template carries the `!s` conversion. -/
def formatGfycatUrl (value : String) : String :=
  ⟨pyFormatAux "\x7bid!s\x7d".data value.data
    GFYCAT_URL_TEMPLATE.data.length GFYCAT_URL_TEMPLATE.data⟩

/-! ## URL patterns (constants.py)

The two compiled patterns `BASIC_PATTERN` and `RAW_PATTERN` are embedded as
abstract syntax trees for a small backtracking matcher with Python `re`
semantics: alternatives are tried greedily (an optional piece first tries to
match, a character-class star first consumes as much as possible), the first
overall match wins, and the trailing `$` accepts either the end of the input
or a single final newline.  The constructs appearing in the two patterns are
literal runs, character classes, `?` on a literal run, concatenation, and the
single named capture group (`+` on a class is embedded as the class followed
by its star, which is the same greedy behaviour). -/

inductive RE where
  | eps : RE
  | str : List Char → RE
  | cls : (Char → Bool) → RE
  | clsStar : (Char → Bool) → RE
  | opt : RE → RE
  | cat : RE → RE → RE
  | group : RE → RE

/-- Greedy matching of `p*`: consume as many `p`-characters as possible and
offer the continuation each stopping point, longest first. -/
def starLoop (p : Char → Bool) (k : List Char → Option (Option (List Char))) :
    List Char → Option (Option (List Char))
  | [] => k []
  | c :: s =>
    if p c then
      match starLoop p k s with
      | some v => some v
      | none => k (c :: s)
    else k (c :: s)

/-- Backtracking matcher in continuation-passing style.  `cap` carries the
text captured so far by the (single) capture group; the continuation receives
the remaining input and the capture state. -/
def reMatch : RE → List Char → Option (List Char) →
    (List Char → Option (List Char) → Option (Option (List Char))) →
    Option (Option (List Char))
  | .eps, s, cap, k => k s cap
  | .str t, s, cap, k =>
    match stripPre t s with
    | some s' => k s' cap
    | none => none
  | .cls p, s, cap, k =>
    match s with
    | [] => none
    | c :: s' => if p c then k s' cap else none
  | .clsStar p, s, cap, k => starLoop p (fun s' => k s' cap) s
  | .opt r, s, cap, k =>
    match reMatch r s cap k with
    | some v => some v
    | none => k s cap
  | .cat a b, s, cap, k => reMatch a s cap (fun s' cap' => reMatch b s' cap' k)
  | .group r, s, cap, k =>
    reMatch r s cap (fun s' _ => k s' (some (s.take (s.length - s'.length))))

/-- Python's `$`: end of input, or a single trailing newline. -/
def endAnchor (s : List Char) : Bool :=
  decide (s = []) || decide (s = ['\n'])

/-- Anchored match of a whole pattern (Python `pattern.match` on a pattern
ending in `$`).  `some cap` means the pattern matched with group capture
`cap`; `none` means no match. -/
def reFullMatch (r : RE) (s : List Char) : Option (Option (List Char)) :=
  reMatch r s none (fun s' cap => if endAnchor s' then some cap else none)

/-- The class `[a-zA-Z]`. -/
def letterClass (c : Char) : Bool := c.isAlpha

/-- The class `[a-zA-Z0-9-]`. -/
def basicTailClass (c : Char) : Bool := c.isAlphanum || c == '-'

/-- The class `[a-zA-Z0-9_-]`. -/
def rawTailClass (c : Char) : Bool := c.isAlphanum || c == '_' || c == '-'

/-- The class `[a-z]`. -/
def lowerClass (c : Char) : Bool := c.isLower

/-- The class `[a-zA-Z0-9]`. -/
def alnumClass (c : Char) : Bool := c.isAlphanum

/-- The literal `https`. -/
def L_https : List Char := ['h', 't', 't', 'p', 's']

/-- The literal `://` that follows the optional colon of `https:?://` (the
compiled pattern has an optional colon and then a required `://`). -/
def L_colon_slashes : List Char := [':', '/', '/']

/-- The literal `www.` of the basic pattern's optional subdomain. -/
def L_www : List Char := ['w', 'w', 'w', '.']

/-- The literal `gfycat.com/` of the basic pattern. -/
def L_gfycat_host : List Char := ['g', 'f', 'y', 'c', 'a', 't', '.', 'c', 'o', 'm', '/']

/-- The literal `gifs/detail` of the basic pattern's optional group (note:
the compiled pattern has no slash after `detail`). -/
def L_gifs_detail : List Char := ['g', 'i', 'f', 's', '/', 'd', 'e', 't', 'a', 'i', 'l']

/-- The literal `.gfycat.com/` of the raw pattern. -/
def L_raw_host : List Char := ['.', 'g', 'f', 'y', 'c', 'a', 't', '.', 'c', 'o', 'm', '/']

/-- constants.py `BASIC_PATTERN`:
`^https:?://(?:www\.)?gfycat\.com/(?:gifs/detail)?(?P<id>[a-zA-Z]+)[a-zA-Z0-9-]*/?$`
(with the `:` of `https:?` optional, exactly as compiled). -/
def BASIC_PATTERN : RE :=
  .cat (.str L_https) (.cat (.opt (.str [':'])) (.cat (.str L_colon_slashes)
    (.cat (.opt (.str L_www)) (.cat (.str L_gfycat_host)
    (.cat (.opt (.str L_gifs_detail))
    (.cat (.group (.cat (.cls letterClass) (.clsStar letterClass)))
    (.cat (.clsStar basicTailClass) (.opt (.str ['/'])))))))))

/-- constants.py `RAW_PATTERN`:
`^https:?://[a-z]+\.gfycat\.com/(?P<id>[a-zA-Z]+)[a-zA-Z0-9_-]*\.[a-zA-Z0-9]+$`. -/
def RAW_PATTERN : RE :=
  .cat (.str L_https) (.cat (.opt (.str [':'])) (.cat (.str L_colon_slashes)
    (.cat (.cls lowerClass) (.cat (.clsStar lowerClass)
    (.cat (.str L_raw_host)
    (.cat (.group (.cat (.cls letterClass) (.clsStar letterClass)))
    (.cat (.clsStar rawTailClass)
    (.cat (.str ['.']) (.cat (.cls alnumClass) (.clsStar alnumClass))))))))))

/-! ## helpers.py -/

/-- helpers.py `get_url_id`, parameterised by the iteration order of the
`VALID_PATTERNS` set: on the first pattern that matches, return the capture
of its `id` group. -/
def get_url_id_over (ps : List RE) (url : String) : Option String :=
  match ps with
  | [] => none
  | p :: rest =>
    match reFullMatch p url.data with
    | some cap => cap.map (fun l => ⟨l⟩)
    | none => get_url_id_over rest url

/-- helpers.py `get_url_id` with the basic pattern tried first. -/
def get_url_id (url : String) : Option String :=
  get_url_id_over [BASIC_PATTERN, RAW_PATTERN] url

/-- helpers.py `get_url_id` with the raw pattern tried first (the other
possible iteration order of the two-element `VALID_PATTERNS` set). -/
def get_url_id_alt (url : String) : Option String :=
  get_url_id_over [RAW_PATTERN, BASIC_PATTERN] url

/-- helpers.py `is_known_url`. -/
def is_known_url (url : String) : Bool :=
  (get_url_id url).isSome

/-- helpers.py `is_known_url` over the other pattern order. -/
def is_known_url_alt (url : String) : Bool :=
  (get_url_id_alt url).isSome

/-- Python `str.lower`, embedded as a per-character map (the configuration
values compared against are ASCII). -/
def strLower (s : String) : String :=
  ⟨s.data.map Char.toLower⟩

/-- helpers.py `is_api_enabled`; the environment is embedded as a partial map
from variable name to value (`os.getenv`). -/
def is_api_enabled (env : String → Option String) : Bool :=
  let v := strLower ((env ENV_API_ENABLED).getD "")
  v == "1" || v == "true"

/-- helpers.py `get_api_tokens`. -/
def get_api_tokens (env : String → Option String) : Option (String × String) :=
  match env ENV_API_TOKEN, env ENV_API_SECRET with
  | some token, some secret => some (token, secret)
  | some _, none => none
  | none, some _ => none
  | none, none => none

/-- Which strategy `get_content_iterator` delegates to, with the credentials
it passes along the API path. -/
inductive StrategyChoice where
  | api (token secret : String)
  | guesswork
deriving DecidableEq, Repr

/-- helpers.py `get_content_iterator`: the routing decision, with the
`RuntimeError` of the missing-credentials branch as `configError`. -/
def get_content_iterator (env : String → Option String) :
    Except MeguError StrategyChoice :=
  if is_api_enabled env then
    match get_api_tokens env with
    | none => .error .configError
    | some (token, secret) => .ok (.api token secret)
  else .ok .guesswork

/-! ## utils.py -/

/-- utils.py `build_content_id`: the f-string
`gfycat-<type_key>-<gfycat_id>`. -/
def build_content_id (gfycat_id : String) (type_key : String) : String :=
  "gfycat-" ++ type_key ++ "-" ++ gfycat_id

/-! ## api.py -/

namespace Api

/-- api.py `DISK_CACHE_NAME`. -/
def DISK_CACHE_NAME : String := "megu_gfycat"

/-- api.py `DISK_CACHE_KEY`. -/
def DISK_CACHE_KEY : String := "bearer_token"

/-- api.py `API_URL_BASE`. -/
def API_URL_BASE : String := "https://api.gfycat.com/v1/"

/-- api.py `API_URL_DATA`. -/
def API_URL_DATA : String := API_URL_BASE ++ "gfycats/"

/-- api.py `API_URL_AUTH`. -/
def API_URL_AUTH : String := API_URL_BASE ++ "oauth/token/"

/-- The HTTP response of the OAuth POST, abstracted to what the code reads:
the success flag (`response.ok`) and the parsed JSON body
(`response.json()`). -/
structure AuthHttp where
  ok : Bool
  payload : AuthResponse

/-- api.py `get_auth_response`: raises (here `authError`) when the response
is not successful, and otherwise returns the parsed payload unchanged — with
no inspection of `access_token`. -/
def get_auth_response (response : AuthHttp) : Except MeguError AuthResponse :=
  if response.ok then .ok response.payload else .error .authError

/-- The disk-backed token cache as explicit state: at most one entry under
the fixed `DISK_CACHE_KEY`, stored as a value plus its absolute expiry
instant.  `diskcache`'s `set (expire = ttl)` stores expiry `now + ttl`, and
`get` yields the default once the expiry instant has been reached. -/
structure TokenCache where
  entry : Option (String × Nat)
deriving DecidableEq, Repr

/-- The cache read `cache.get DISK_CACHE_KEY (default = None)` at instant
`now`. -/
def cache_get (cache : TokenCache) (now : Nat) : Option String :=
  match cache.entry with
  | some (v, expiresAt) => if now < expiresAt then some v else none
  | none => none

/-- The cache write `cache.set DISK_CACHE_KEY value (expire = ttl)` at
instant `now`. -/
def cache_set (value : String) (ttl : Nat) (now : Nat) : TokenCache :=
  ⟨some (value, now + ttl)⟩

/-- api.py `get_bearer_token`, with the clock, the OAuth response the network
would deliver, and the cache passed explicitly.  On success it returns the
token, the cache state after the call, and the number of auth requests
performed (0 on a cache hit, 1 on a miss). -/
def get_bearer_token (now : Nat) (authHttp : AuthHttp) (cache : TokenCache) :
    Except MeguError (String × TokenCache × Nat) :=
  match cache_get cache now with
  | some bearer_token => .ok (bearer_token, cache, 0)
  | none =>
    match get_auth_response authHttp with
    | .error e => .error e
    | .ok auth_response =>
      let bearer_token := auth_response.access_token
      if bearer_token = "" then .error .authError
      else
        .ok (bearer_token,
          cache_set bearer_token (auth_response.expires_in.getD 3600) now, 1)

/-- api.py `iter_content`, with the two network effects (ID resolution and
item fetch) abstracted: `gfycat_id` is the ID resolved from the input URL and
`resp` the successful item payload.  The generator is embedded as the list of
contents it yields when fully consumed. -/
def iter_content (gfycat_id : String) (resp : GfycatResponse) : List Content :=
  let gfycat_item := resp.gfyItem
  let gfycat_url := formatGfycatUrl gfycat_item.gfyId
  let meta : Meta :=
    { id := gfycat_item.gfyId
      description := some gfycat_item.description
      publisher := some gfycat_item.username
      published_at := some gfycat_item.createDate
      thumbnail := some gfycat_item.posterUrl }
  CONTENT_ENTRIES.filterMap fun content_entry =>
    match gfycat_item.content_urls content_entry.type with
    | some data =>
      some
        { id := build_content_id gfycat_id content_entry.type
          url := gfycat_url
          size := data.size
          type := content_entry.mimetype
          quality := content_entry.quality
          resources := [{ method := .GET, url := data.url }]
          meta := meta
          extra := some resp }
    | none => none

end Api

/-! ## guesswork.py -/

namespace Guesswork

/-- The response of one HEAD existence probe, abstracted to what the code
reads: the success flag and the numeric value of the `content-length` header
when that header is present. -/
structure HeadResponse where
  ok : Bool
  content_length : Option Nat
deriving DecidableEq, Repr

/-- The loop body of guesswork.py `iter_content`: walk the variant table in
order, probe each templated CDN URL, skip the entry when the probe fails and
yield a content when it succeeds.  Returns the probed URLs (one HEAD request
per table entry, in order) alongside the yielded contents. -/
def iter_content_loop (url gfycat_id : String) (head : String → HeadResponse)
    (gfycat_meta : Meta) : List ContentEntry → List String × List Content
  | [] => ([], [])
  | content_entry :: rest =>
    let content_url := formatTemplate content_entry.url_template gfycat_id
    let response := head content_url
    let next := iter_content_loop url gfycat_id head gfycat_meta rest
    if response.ok then
      (content_url :: next.1,
        { id := build_content_id gfycat_id content_entry.type
          url := url
          size := response.content_length.getD 0
          type := content_entry.mimetype
          quality := content_entry.quality
          resources := [{ method := .GET, url := content_url }]
          meta := gfycat_meta } :: next.2)
    else
      (content_url :: next.1, next.2)

/-- guesswork.py `iter_content`, with the network abstracted: `gfycat_id` is
the ID `find_gfycat_id` resolved from the page and `head` delivers the HEAD
response for each probed URL.  First component: the probe requests issued, in
order, when the generator is fully consumed; second: the yielded contents. -/
def iter_content (url gfycat_id : String) (head : String → HeadResponse) :
    List String × List Content :=
  iter_content_loop url gfycat_id head { id := gfycat_id } CONTENT_ENTRIES

end Guesswork

/-! ## plugins/basic.py -/

namespace Plugin

/-- megu's `Manifest`, abstracted to what `merge_manifest` reads: the list of
(resource, local path) pairs.  Paths are strings. -/
structure Manifest where
  artifacts : List (String × String)
deriving DecidableEq, Repr

/-- Outcome of a successful merge: the returned path together with the
renames `(source, target)` performed on the filesystem. -/
structure MergeResult where
  result_path : String
  renames : List (String × String)
deriving DecidableEq, Repr

/-- plugins/basic.py `GfycatBasicPlugin.merge_manifest`: demand exactly one
artifact, rename its local file to `to_path` and return `to_path`. -/
def merge_manifest (manifest : Manifest) (to_path : String) :
    Except MeguError MergeResult :=
  if h : manifest.artifacts.length = 1 then
    let artifact_path := (manifest.artifacts.get ⟨0, by omega⟩).2
    .ok { result_path := to_path, renames := [(artifact_path, to_path)] }
  else .error .validationError

end Plugin

/-! ## Helper lemmas -/

theorem string_data_append (a b : String) : (a ++ b).data = a.data ++ b.data := by
  cases a
  cases b
  rfl

theorem string_eq_of_data {a b : String} (h : a.data = b.data) : a = b := by
  cases a
  cases b
  simp only at h
  rw [h]

/-- Splitting at the first occurrence of a character is unambiguous: if two
decompositions around `x` agree and neither left part contains `x`, the
decompositions are equal. -/
theorem split_at_first_eq (x : Char) :
    ∀ (d₁ r₁ d₂ r₂ : List Char),
      (∀ c ∈ d₁, c ≠ x) → (∀ c ∈ d₂, c ≠ x) →
      d₁ ++ x :: r₁ = d₂ ++ x :: r₂ → d₁ = d₂ ∧ r₁ = r₂ := by
  intro d₁
  induction d₁ with
  | nil =>
    intro r₁ d₂ r₂ h₁ h₂ h
    cases d₂ with
    | nil => simpa using h
    | cons c d₂ =>
      simp only [List.nil_append, List.cons_append, List.cons.injEq] at h
      exact absurd h.1.symm (h₂ c (by simp))
  | cons c d₁ ih =>
    intro r₁ d₂ r₂ h₁ h₂ h
    cases d₂ with
    | nil =>
      simp only [List.cons_append, List.nil_append, List.cons.injEq] at h
      exact absurd h.1 (h₁ c (by simp))
    | cons c' d₂ =>
      simp only [List.cons_append, List.cons.injEq] at h
      obtain ⟨rfl, h⟩ := h
      obtain ⟨e₁, e₂⟩ := ih r₁ d₂ r₂ (fun a ha => h₁ a (by simp [ha]))
        (fun a ha => h₂ a (by simp [ha])) h
      exact ⟨by rw [e₁], e₂⟩

/-- The outputs of `filterMap` correspond one-to-one, in order, with the kept
entries of `filter`, whenever the filter test agrees with definedness of the
mapping function. -/
theorem filterMap_filter_forall₂ {α β : Type _} (F : α → Option β) (Q : α → Bool)
    (R : β → α → Prop) (hQ : ∀ a, Q a = true ↔ (F a).isSome)
    (hR : ∀ a b, F a = some b → R b a) :
    ∀ L : List α, List.Forall₂ R (L.filterMap F) (L.filter Q) := by
  intro L
  induction L with
  | nil => simp
  | cons a L ih =>
    cases hFa : F a with
    | none =>
      have hq : Q a = false := by
        rw [← Bool.not_eq_true]
        intro hq
        exact absurd ((hQ a).mp hq) (by simp [hFa])
      simpa [List.filterMap_cons, List.filter_cons, hFa, hq] using ih
    | some b =>
      have hq : Q a = true := (hQ a).mpr (by simp [hFa])
      simpa [List.filterMap_cons, List.filter_cons, hFa, hq] using
        List.Forall₂.cons (hR a b hFa) ih

/-! ## Language semantics of the embedded patterns -/

/-- Language predicate: `Accepts r u` says the pattern fragment `r` can
consume exactly the characters `u`. -/
inductive Accepts : RE → List Char → Prop
  | eps : Accepts .eps []
  | str (t : List Char) : Accepts (.str t) t
  | cls {p : Char → Bool} {c : Char} : p c = true → Accepts (.cls p) [c]
  | clsStarNil {p : Char → Bool} : Accepts (.clsStar p) []
  | clsStarCons {p : Char → Bool} {c : Char} {u : List Char} :
      p c = true → Accepts (.clsStar p) u → Accepts (.clsStar p) (c :: u)
  | optNone {r : RE} : Accepts (.opt r) []
  | optSome {r : RE} {u : List Char} : Accepts r u → Accepts (.opt r) u
  | cat {a b : RE} {u v : List Char} :
      Accepts a u → Accepts b v → Accepts (.cat a b) (u ++ v)
  | group {r : RE} {u : List Char} : Accepts r u → Accepts (.group r) u

theorem accepts_clsStar_of_all {p : Char → Bool} :
    ∀ {u : List Char}, (∀ c ∈ u, p c = true) → Accepts (.clsStar p) u
  | [], _ => .clsStarNil
  | c :: u, h =>
    .clsStarCons (h c (by simp)) (accepts_clsStar_of_all fun a ha => h a (by simp [ha]))

theorem all_of_accepts_clsStar {p : Char → Bool} {u : List Char}
    (h : Accepts (.clsStar p) u) : ∀ c ∈ u, p c = true := by
  generalize hr : RE.clsStar p = r at h
  induction h with
  | clsStarNil => simp
  | clsStarCons hp _ ih =>
    injection hr with hpe
    subst hpe
    intro a ha
    rcases List.mem_cons.mp ha with rfl | ha
    · exact hp
    · exact ih rfl a ha
  | eps => exact absurd hr (by simp)
  | str t => exact absurd hr (by simp)
  | cls _ => exact absurd hr (by simp)
  | optNone => exact absurd hr (by simp)
  | optSome _ => exact absurd hr (by simp)
  | cat _ _ => exact absurd hr (by simp)
  | group _ => exact absurd hr (by simp)

theorem starLoop_sound {p : Char → Bool}
    {k : List Char → Option (Option (List Char))} :
    ∀ {s : List Char} {v}, starLoop p k s = some v →
      ∃ u s', s = u ++ s' ∧ (∀ c ∈ u, p c = true) ∧ k s' = some v := by
  intro s
  induction s with
  | nil =>
    intro v h
    exact ⟨[], [], rfl, by simp, by simpa [starLoop] using h⟩
  | cons c s ih =>
    intro v h
    by_cases hp : p c = true
    · rw [starLoop, if_pos hp] at h
      cases hsl : starLoop p k s with
      | some v' =>
        rw [hsl] at h
        obtain rfl : v' = v := by injection h
        obtain ⟨u, s', rfl, hall, hk⟩ := ih hsl
        refine ⟨c :: u, s', rfl, ?_, hk⟩
        intro a ha
        rcases List.mem_cons.mp ha with rfl | ha
        · exact hp
        · exact hall a ha
      | none =>
        rw [hsl] at h
        exact ⟨[], c :: s, rfl, by simp, h⟩
    · rw [starLoop, if_neg hp] at h
      exact ⟨[], c :: s, rfl, by simp, h⟩

/-- Soundness of the backtracking matcher: a successful run splits the input
into an accepted part and a remainder handed to the continuation. -/
theorem reMatch_sound :
    ∀ (r : RE) (s : List Char) (cap : Option (List Char)) k v,
      reMatch r s cap k = some v →
      ∃ u s' cap', s = u ++ s' ∧ Accepts r u ∧ k s' cap' = some v := by
  intro r
  induction r with
  | eps =>
    intro s cap k v h
    exact ⟨[], s, cap, rfl, .eps, h⟩
  | str t =>
    intro s cap k v h
    rw [reMatch] at h
    cases hsp : stripPre t s with
    | none => rw [hsp] at h; cases h
    | some s' =>
      rw [hsp] at h
      exact ⟨t, s', cap, stripPre_eq_append t s s' hsp, .str t, h⟩
  | cls p =>
    intro s cap k v h
    cases s with
    | nil => rw [reMatch] at h; cases h
    | cons c s' =>
      rw [reMatch] at h
      by_cases hp : p c = true
      · rw [if_pos hp] at h
        exact ⟨[c], s', cap, rfl, .cls hp, h⟩
      · rw [if_neg hp] at h; cases h
  | clsStar p =>
    intro s cap k v h
    rw [reMatch] at h
    obtain ⟨u, s', rfl, hall, hk⟩ := starLoop_sound h
    exact ⟨u, s', cap, rfl, accepts_clsStar_of_all hall, hk⟩
  | opt r ih =>
    intro s cap k v h
    rw [reMatch] at h
    cases hr : reMatch r s cap k with
    | some v' =>
      rw [hr] at h
      obtain rfl : v' = v := by injection h
      obtain ⟨u, s', cap', rfl, ha, hk⟩ := ih _ _ _ _ hr
      exact ⟨u, s', cap', rfl, .optSome ha, hk⟩
    | none =>
      rw [hr] at h
      exact ⟨[], s, cap, rfl, .optNone, h⟩
  | cat a b iha ihb =>
    intro s cap k v h
    rw [reMatch] at h
    obtain ⟨u₁, s₁, cap₁, rfl, ha, hk₁⟩ := iha _ _ _ _ h
    obtain ⟨u₂, s₂, cap₂, hs, hb, hk₂⟩ := ihb _ _ _ _ hk₁
    exact ⟨u₁ ++ u₂, s₂, cap₂, by rw [hs, List.append_assoc], .cat ha hb, hk₂⟩
  | group r ih =>
    intro s cap k v h
    rw [reMatch] at h
    obtain ⟨u, s', cap', hs, ha, hk⟩ := ih _ _ _ _ h
    exact ⟨u, s', some (s.take (s.length - s'.length)), hs, .group ha, hk⟩

theorem accepts_str_inv {t u : List Char} (h : Accepts (.str t) u) : u = t := by
  cases h
  rfl

theorem accepts_opt_str {t u : List Char} (h : Accepts (.opt (.str t)) u) :
    u = [] ∨ u = t := by
  cases h with
  | optNone => exact Or.inl rfl
  | optSome h' => exact Or.inr (accepts_str_inv h')

theorem accepts_cls_inv {p : Char → Bool} {u : List Char}
    (h : Accepts (.cls p) u) : ∃ c, u = [c] ∧ p c = true := by
  cases h with
  | cls hp => exact ⟨_, rfl, hp⟩

/-- The id capture group `(cls p)(clsStar p)` (the embedding of `p+`) accepts
exactly the nonempty all-`p` strings. -/
theorem accepts_group_plus {p : Char → Bool} {u : List Char}
    (h : Accepts (.group (.cat (.cls p) (.clsStar p))) u) :
    u ≠ [] ∧ ∀ c ∈ u, p c = true := by
  cases h with
  | group h' =>
    cases h' with
    | cat h₁ h₂ =>
      cases h₁ with
      | cls hp =>
        refine ⟨by simp, ?_⟩
        intro a ha
        rcases List.mem_cons.mp (by simpa using ha) with rfl | ha'
        · exact hp
        · exact all_of_accepts_clsStar h₂ a ha'

theorem letterClass_ne_dot {c : Char} (h : letterClass c = true) : c ≠ '.' := by
  rintro rfl
  exact absurd h (by decide)

theorem lowerClass_ne_dot {c : Char} (h : lowerClass c = true) : c ≠ '.' := by
  rintro rfl
  exact absurd h (by decide)

theorem basicTailClass_ne_dot {c : Char} (h : basicTailClass c = true) : c ≠ '.' := by
  rintro rfl
  exact absurd h (by decide)

theorem endAnchor_cases {s : List Char} (h : endAnchor s = true) : s = [] ∨ s = ['\n'] := by
  simpa [endAnchor] using h

theorem basic_full_decomp {s : List Char} {v : Option (List Char)}
    (h : reFullMatch BASIC_PATTERN s = some v) :
    ∃ a w g i t sl z,
      s = L_https ++ (a ++ (L_colon_slashes ++ (w ++ (L_gfycat_host ++
        (g ++ (i ++ (t ++ (sl ++ z)))))))) ∧
      (a = [] ∨ a = [':']) ∧ (w = [] ∨ w = L_www) ∧ (g = [] ∨ g = L_gifs_detail) ∧
      i ≠ [] ∧ (∀ c ∈ i, letterClass c = true) ∧
      (∀ c ∈ t, basicTailClass c = true) ∧ (sl = [] ∨ sl = ['/']) ∧
      (z = [] ∨ z = ['\n']) := by
  rw [reFullMatch] at h
  obtain ⟨u, s', cap', hs, hacc, hk⟩ := reMatch_sound _ _ _ _ _ h
  have hz : s' = [] ∨ s' = ['\n'] := by
    by_cases he : endAnchor s' = true
    · exact endAnchor_cases he
    · rw [if_neg he] at hk; cases hk
  simp only [BASIC_PATTERN] at hacc
  cases hacc with
  | cat h1 h2 =>
  have e1 := accepts_str_inv h1
  subst e1
  cases h2 with
  | cat ha h3 =>
  have hae := accepts_opt_str ha
  cases h3 with
  | cat h4 h5 =>
  have e4 := accepts_str_inv h4
  subst e4
  cases h5 with
  | cat hw h6 =>
  have hwe := accepts_opt_str hw
  cases h6 with
  | cat h7 h8 =>
  have e7 := accepts_str_inv h7
  subst e7
  cases h8 with
  | cat hg h9 =>
  have hge := accepts_opt_str hg
  cases h9 with
  | cat hgrp h10 =>
  obtain ⟨hine, hiall⟩ := accepts_group_plus hgrp
  cases h10 with
  | cat hstar hsl =>
  have htall := all_of_accepts_clsStar hstar
  have hsle := accepts_opt_str hsl
  refine ⟨_, _, _, _, _, _, s', ?_, hae, hwe, hge, hine, hiall, htall, hsle, hz⟩
  rw [hs]
  simp [List.append_assoc]



theorem raw_full_decomp {s : List Char} {v : Option (List Char)}
    (h : reFullMatch RAW_PATTERN s = some v) :
    ∃ a d i t e z,
      s = L_https ++ (a ++ (L_colon_slashes ++ (d ++ (L_raw_host ++
        (i ++ (t ++ ('.' :: (e ++ z)))))))) ∧
      (a = [] ∨ a = [':']) ∧ d ≠ [] ∧ (∀ c ∈ d, lowerClass c = true) ∧
      i ≠ [] ∧ (∀ c ∈ i, letterClass c = true) ∧
      (∀ c ∈ t, rawTailClass c = true) ∧
      e ≠ [] ∧ (∀ c ∈ e, alnumClass c = true) ∧ (z = [] ∨ z = ['\n']) := by
  rw [reFullMatch] at h
  obtain ⟨u, s', cap', hs, hacc, hk⟩ := reMatch_sound _ _ _ _ _ h
  have hz : s' = [] ∨ s' = ['\n'] := by
    by_cases he : endAnchor s' = true
    · exact endAnchor_cases he
    · rw [if_neg he] at hk; cases hk
  simp only [RAW_PATTERN] at hacc
  cases hacc with
  | @cat _ _ u₁ r₁ h1 h2 =>
  have e1 := accepts_str_inv h1
  subst e1
  cases h2 with
  | @cat _ _ ua r₂ ha h3 =>
  have hae := accepts_opt_str ha
  cases h3 with
  | @cat _ _ u₃ r₃ h4 h5 =>
  have e4 := accepts_str_inv h4
  subst e4
  cases h5 with
  | @cat _ _ ud r₄ hd0 h6 =>
  obtain ⟨d0, ed0, hd0p⟩ := accepts_cls_inv hd0
  subst ed0
  cases h6 with
  | @cat _ _ uds r₅ hdstar h7 =>
  have hdall := all_of_accepts_clsStar hdstar
  cases h7 with
  | @cat _ _ u₆ r₆ h8 h9 =>
  have e8 := accepts_str_inv h8
  subst e8
  cases h9 with
  | @cat _ _ ui r₇ hgrp h10 =>
  obtain ⟨hine, hiall⟩ := accepts_group_plus hgrp
  cases h10 with
  | @cat _ _ ut r₈ htstar h11 =>
  have htall := all_of_accepts_clsStar htstar
  cases h11 with
  | @cat _ _ u₉ r₉ h12 h13 =>
  have e12 := accepts_str_inv h12
  subst e12
  cases h13 with
  | @cat _ _ ue ues he0 hestar =>
  obtain ⟨e0, ee0, he0p⟩ := accepts_cls_inv he0
  subst ee0
  have heall := all_of_accepts_clsStar hestar
  refine ⟨ua, d0 :: uds, ui, ut, e0 :: ues, s', ?_, hae, by simp, ?_, hine, hiall,
    htall, by simp, ?_, hz⟩
  · rw [hs]
    simp [List.append_assoc]
  · intro c hc
    rcases List.mem_cons.mp hc with rfl | hc
    · exact hd0p
    · exact hdall c hc
  · intro c hc
    rcases List.mem_cons.mp hc with rfl | hc
    · exact he0p
    · exact heall c hc



theorem letterClass_not_dot : ¬letterClass '.' = true := by decide

/-- Core of pattern disjointness: once the `https:?://` prefix has been
cancelled, the basic pattern's remainder (which can contain no dot after the
host) cannot coincide with the raw pattern's remainder (which requires a dot
before the file extension). -/
theorem basic_raw_tail_contra
    (w g i t sl z d i' t' e z' : List Char)
    (hw : w = [] ∨ w = L_www) (hg : g = [] ∨ g = L_gifs_detail)
    (hiall : ∀ c ∈ i, letterClass c = true)
    (htall : ∀ c ∈ t, basicTailClass c = true)
    (hsl : sl = [] ∨ sl = ['/']) (hz : z = [] ∨ z = ['\n'])
    (hdall : ∀ c ∈ d, lowerClass c = true)
    (E : w ++ 'g' :: 'f' :: 'y' :: 'c' :: 'a' :: 't' :: '.' :: 'c' :: 'o' ::
        'm' :: '/' :: (g ++ (i ++ (t ++ (sl ++ z)))) =
      d ++ '.' :: 'g' :: 'f' :: 'y' :: 'c' :: 'a' :: 't' :: '.' :: 'c' ::
        'o' :: 'm' :: '/' :: (i' ++ (t' ++ '.' :: (e ++ z')))) : False := by
  have hdnd : ∀ c ∈ d, c ≠ '.' := fun c hc => lowerClass_ne_dot (hdall c hc)
  rcases hw with rfl | rfl
  · have E' : ['g', 'f', 'y', 'c', 'a', 't'] ++ '.' ::
        ('c' :: 'o' :: 'm' :: '/' :: (g ++ (i ++ (t ++ (sl ++ z))))) =
        d ++ '.' :: ('g' :: 'f' :: 'y' :: 'c' :: 'a' :: 't' :: '.' :: 'c' ::
          'o' :: 'm' :: '/' :: (i' ++ (t' ++ '.' :: (e ++ z')))) := by
      simpa using E
    obtain ⟨hd, hr⟩ := split_at_first_eq '.' _ _ _ _ (by decide) hdnd E'
    simp at hr
  · have E' : ['w', 'w', 'w'] ++ '.' ::
        ('g' :: 'f' :: 'y' :: 'c' :: 'a' :: 't' :: '.' :: 'c' :: 'o' :: 'm' ::
          '/' :: (g ++ (i ++ (t ++ (sl ++ z))))) =
        d ++ '.' :: ('g' :: 'f' :: 'y' :: 'c' :: 'a' :: 't' :: '.' :: 'c' ::
          'o' :: 'm' :: '/' :: (i' ++ (t' ++ '.' :: (e ++ z')))) := by
      simpa [L_www] using E
    obtain ⟨hd, hr⟩ := split_at_first_eq '.' _ _ _ _ (by decide) hdnd E'
    simp only [List.cons.injEq, true_and] at hr
    have hdot : ('.' : Char) ∈ i' ++ (t' ++ '.' :: (e ++ z')) := by simp
    rw [← hr] at hdot
    simp only [List.mem_append] at hdot
    rcases hdot with hdg | hdi | hdt | hdsl | hdz
    · rcases hg with rfl | rfl
      · simp at hdg
      · exact absurd hdg (by decide)
    · exact absurd (hiall _ hdi) (by decide)
    · exact absurd (htall _ hdt) (by decide)
    · rcases hsl with rfl | rfl
      · simp at hdsl
      · exact absurd hdsl (by decide)
    · rcases hz with rfl | rfl
      · simp at hdz
      · exact absurd hdz (by decide)

theorem patterns_disjoint (s : List Char) :
    ¬∃ v₁ v₂, reFullMatch BASIC_PATTERN s = some v₁ ∧
      reFullMatch RAW_PATTERN s = some v₂ := by
  rintro ⟨v₁, v₂, h₁, h₂⟩
  obtain ⟨a, w, g, i, t, sl, z, hs₁, ha, hw, hg, hine, hiall, htall, hsl, hz⟩ :=
    basic_full_decomp h₁
  obtain ⟨a', d, i', t', e, z', hs₂, ha', hdne, hdall, hine', hiall', htall',
    hene, heall, hz'⟩ := raw_full_decomp h₂
  have E := hs₁.symm.trans hs₂
  clear hs₁ hs₂ h₁ h₂
  rcases ha with rfl | rfl <;> rcases ha' with rfl | rfl <;>
    simp only [L_https, L_colon_slashes, L_gfycat_host, L_raw_host, L_www,
      L_gifs_detail, List.cons_append, List.nil_append, List.append_assoc,
      List.singleton_append, List.cons.injEq, true_and] at E <;>
    first
    | exact absurd E.1 (by decide)
    | exact basic_raw_tail_contra w g i t sl z d i' t' e z' hw hg hiall htall
        hsl hz hdall E

theorem formatGfycatUrl_eq (v : String) :
    formatGfycatUrl v = "https://gfycat.com/" ++ v := by
  apply string_eq_of_data
  rw [string_data_append]
  show pyFormatAux _ _ 25 _ = _
  simp [pyFormatAux, stripPre]

theorem formatTemplate_mp4 (v : String) :
    formatTemplate "https://giant.gfycat.com/\x7bid\x7d.mp4" v =
      "https://giant.gfycat.com/" ++ v ++ ".mp4" := by
  apply string_eq_of_data
  rw [string_data_append, string_data_append]
  show pyFormatAux _ _ 33 _ = _
  simp [pyFormatAux, stripPre]

theorem formatTemplate_webm (v : String) :
    formatTemplate "https://giant.gfycat.com/\x7bid\x7d.webm" v =
      "https://giant.gfycat.com/" ++ v ++ ".webm" := by
  apply string_eq_of_data
  rw [string_data_append, string_data_append]
  show pyFormatAux _ _ 34 _ = _
  simp [pyFormatAux, stripPre]

theorem formatTemplate_5mb (v : String) :
    formatTemplate "https://thumbs.gfycat.com/\x7bid\x7d-size_restricted.gif" v =
      "https://thumbs.gfycat.com/" ++ v ++ "-size_restricted.gif" := by
  apply string_eq_of_data
  rw [string_data_append, string_data_append]
  show pyFormatAux _ _ 50 _ = _
  simp [pyFormatAux, stripPre]

theorem formatTemplate_2mb (v : String) :
    formatTemplate "https://thumbs.gfycat.com/\x7bid\x7d-small.gif" v =
      "https://thumbs.gfycat.com/" ++ v ++ "-small.gif" := by
  apply string_eq_of_data
  rw [string_data_append, string_data_append]
  show pyFormatAux _ _ 40 _ = _
  simp [pyFormatAux, stripPre]

theorem formatTemplate_1mb (v : String) :
    formatTemplate "https://thumbs.gfycat.com/\x7bid\x7d-max-1mb.gif" v =
      "https://thumbs.gfycat.com/" ++ v ++ "-max-1mb.gif" := by
  apply string_eq_of_data
  rw [string_data_append, string_data_append]
  show pyFormatAux _ _ 42 _ = _
  simp [pyFormatAux, stripPre]

theorem iter_content_loop_probes (url gfycat_id : String)
    (head : String → Guesswork.HeadResponse) (meta : Meta) :
    ∀ L, (Guesswork.iter_content_loop url gfycat_id head meta L).1 =
      L.map (fun ce => formatTemplate ce.url_template gfycat_id) := by
  intro L
  induction L with
  | nil => rfl
  | cons ce L ih =>
    simp only [Guesswork.iter_content_loop, List.map_cons]
    split <;> simp [ih]

theorem iter_content_loop_forall₂ (url gfycat_id : String)
    (head : String → Guesswork.HeadResponse) (meta : Meta) :
    ∀ L, List.Forall₂
      (fun c ce =>
        c.id = build_content_id gfycat_id ce.type ∧
        c.url = url ∧
        c.size = (head (formatTemplate ce.url_template gfycat_id)).content_length.getD 0 ∧
        c.type = ce.mimetype ∧ c.quality = ce.quality ∧
        c.resources =
          [{ method := .GET, url := formatTemplate ce.url_template gfycat_id }] ∧
        c.meta = meta ∧ c.extra = none)
      (Guesswork.iter_content_loop url gfycat_id head meta L).2
      (L.filter fun ce => (head (formatTemplate ce.url_template gfycat_id)).ok) := by
  intro L
  induction L with
  | nil => simp [Guesswork.iter_content_loop]
  | cons ce L ih =>
    simp only [Guesswork.iter_content_loop, List.filter_cons]
    by_cases hok : (head (formatTemplate ce.url_template gfycat_id)).ok = true
    · simp only [hok, if_pos]
      exact List.Forall₂.cons ⟨rfl, rfl, rfl, rfl, rfl, rfl, rfl, rfl⟩ ih
    · simp only [Bool.not_eq_true] at hok
      simp only [hok]
      simpa using ih

theorem forall₂_mem_left {α β : Type _} {R : α → β → Prop} :
    ∀ {l₁ : List α} {l₂ : List β}, List.Forall₂ R l₁ l₂ →
      ∀ a ∈ l₁, ∃ b ∈ l₂, R a b := by
  intro l₁ l₂ h
  induction h with
  | nil => simp
  | cons hR htl ih =>
    intro a ha
    rcases List.mem_cons.mp ha with rfl | ha
    · exact ⟨_, by simp, hR⟩
    · obtain ⟨b, hb, hRb⟩ := ih a ha
      exact ⟨b, by simp [hb], hRb⟩

/-- The API strategy's output corresponds entry by entry, in table order, to
the variant-table entries whose type key is present in the payload map. -/
theorem api_content_table_forall₂ (gfycat_id : String) (resp : GfycatResponse) :
    List.Forall₂
      (fun c ce => ∃ data, resp.gfyItem.content_urls ce.type = some data ∧
        c.size = data.size ∧
        c.resources = [{ method := .GET, url := data.url }] ∧
        c.url = "https://gfycat.com/" ++ resp.gfyItem.gfyId ∧
        c.quality = ce.quality ∧ c.type = ce.mimetype ∧
        c.id = build_content_id gfycat_id ce.type)
      (Api.iter_content gfycat_id resp)
      (CONTENT_ENTRIES.filter fun ce => (resp.gfyItem.content_urls ce.type).isSome) := by
  have hunf : Api.iter_content gfycat_id resp =
      CONTENT_ENTRIES.filterMap (fun content_entry =>
        match resp.gfyItem.content_urls content_entry.type with
        | some data =>
          some
            { id := build_content_id gfycat_id content_entry.type
              url := formatGfycatUrl resp.gfyItem.gfyId
              size := data.size
              type := content_entry.mimetype
              quality := content_entry.quality
              resources := [{ method := .GET, url := data.url }]
              meta := { id := resp.gfyItem.gfyId
                        description := some resp.gfyItem.description
                        publisher := some resp.gfyItem.username
                        published_at := some resp.gfyItem.createDate
                        thumbnail := some resp.gfyItem.posterUrl }
              extra := some resp }
        | none => none) := rfl
  rw [hunf]
  refine filterMap_filter_forall₂ _ _ _ ?_ ?_ CONTENT_ENTRIES
  · intro ce
    cases h : resp.gfyItem.content_urls ce.type <;> simp [h]
  · intro ce c hF
    cases h : resp.gfyItem.content_urls ce.type with
    | none =>
      simp only [h] at hF
      exact Option.noConfusion hF
    | some data =>
      simp only [h] at hF
      obtain rfl : _ = c := by injection hF
      exact ⟨data, rfl, rfl, rfl, formatGfycatUrl_eq _, rfl, rfl, rfl⟩

/-- C1: for every item payload, the API strategy's `iter_content` yields
exactly one `Content` per entry of the 5-entry static variant table whose
`type` key is present in the payload's `content_urls` map, in table order;
each yielded content takes its size and direct resource URL from that map
entry, its quality and mimetype from the table entry, and uses the item's
canonical page URL `https://gfycat.com/<gfyId>` as its logical URL.  In
particular a payload whose map holds exactly `mp4` and `webm` yields exactly
two contents, `mp4` before `webm`. -/
theorem C1_api_content_variant_table (gfycat_id : String) (resp : GfycatResponse) :
    List.Forall₂
      (fun c ce => ∃ data, resp.gfyItem.content_urls ce.type = some data ∧
        c.size = data.size ∧
        c.resources = [{ method := .GET, url := data.url }] ∧
        c.url = "https://gfycat.com/" ++ resp.gfyItem.gfyId ∧
        c.quality = ce.quality ∧ c.type = ce.mimetype ∧
        c.id = build_content_id gfycat_id ce.type)
      (Api.iter_content gfycat_id resp)
      (CONTENT_ENTRIES.filter fun ce => (resp.gfyItem.content_urls ce.type).isSome) ∧
    (∀ d₁ d₂ : GfycatContent,
      resp.gfyItem.content_urls =
        (fun t => if t = "mp4" then some d₁ else if t = "webm" then some d₂ else none) →
      Api.iter_content gfycat_id resp =
        [ { id := build_content_id gfycat_id "mp4"
            url := "https://gfycat.com/" ++ resp.gfyItem.gfyId
            size := d₁.size
            type := "video/mp4"
            quality := 1
            resources := [{ method := .GET, url := d₁.url }]
            meta := { id := resp.gfyItem.gfyId
                      description := some resp.gfyItem.description
                      publisher := some resp.gfyItem.username
                      published_at := some resp.gfyItem.createDate
                      thumbnail := some resp.gfyItem.posterUrl }
            extra := some resp },
          { id := build_content_id gfycat_id "webm"
            url := "https://gfycat.com/" ++ resp.gfyItem.gfyId
            size := d₂.size
            type := "video/webm"
            quality := 1/2
            resources := [{ method := .GET, url := d₂.url }]
            meta := { id := resp.gfyItem.gfyId
                      description := some resp.gfyItem.description
                      publisher := some resp.gfyItem.username
                      published_at := some resp.gfyItem.createDate
                      thumbnail := some resp.gfyItem.posterUrl }
            extra := some resp } ]) := by
  constructor
  · exact api_content_table_forall₂ gfycat_id resp
  · intro d₁ d₂ hcu
    have hunf : Api.iter_content gfycat_id resp =
        CONTENT_ENTRIES.filterMap (fun content_entry =>
          match resp.gfyItem.content_urls content_entry.type with
          | some data =>
            some
              { id := build_content_id gfycat_id content_entry.type
                url := formatGfycatUrl resp.gfyItem.gfyId
                size := data.size
                type := content_entry.mimetype
                quality := content_entry.quality
                resources := [{ method := .GET, url := data.url }]
                meta := { id := resp.gfyItem.gfyId
                          description := some resp.gfyItem.description
                          publisher := some resp.gfyItem.username
                          published_at := some resp.gfyItem.createDate
                          thumbnail := some resp.gfyItem.posterUrl }
                extra := some resp }
          | none => none) := rfl
    rw [hunf]
    simp [CONTENT_ENTRIES, List.filterMap_cons, hcu, formatGfycatUrl_eq]
    norm_num

/-- Witness for C1 at a concrete payload. -/
theorem C1_api_content_variant_table_witness :
    Api.iter_content "abc"
      { gfyItem :=
        { gfyId := "xyz", createDate := 7, description := "desc"
          username := "user", posterUrl := "poster"
          content_urls := fun t =>
            if t = "mp4" then some { url := "u1", size := 10, width := 1, height := 2 }
            else if t = "webm" then some { url := "u2", size := 20, width := 3, height := 4 }
            else none } } =
      [ { id := build_content_id "abc" "mp4"
          url := "https://gfycat.com/" ++ "xyz"
          size := 10
          type := "video/mp4"
          quality := 1
          resources := [{ method := .GET, url := "u1" }]
          meta := { id := "xyz", description := some "desc", publisher := some "user"
                    published_at := some 7, thumbnail := some "poster" }
          extra := some { gfyItem :=
            { gfyId := "xyz", createDate := 7, description := "desc"
              username := "user", posterUrl := "poster"
              content_urls := fun t =>
                if t = "mp4" then some { url := "u1", size := 10, width := 1, height := 2 }
                else if t = "webm" then some { url := "u2", size := 20, width := 3, height := 4 }
                else none } } },
        { id := build_content_id "abc" "webm"
          url := "https://gfycat.com/" ++ "xyz"
          size := 20
          type := "video/webm"
          quality := 1/2
          resources := [{ method := .GET, url := "u2" }]
          meta := { id := "xyz", description := some "desc", publisher := some "user"
                    published_at := some 7, thumbnail := some "poster" }
          extra := some { gfyItem :=
            { gfyId := "xyz", createDate := 7, description := "desc"
              username := "user", posterUrl := "poster"
              content_urls := fun t =>
                if t = "mp4" then some { url := "u1", size := 10, width := 1, height := 2 }
                else if t = "webm" then some { url := "u2", size := 20, width := 3, height := 4 }
                else none } } } ] :=
  (C1_api_content_variant_table "abc" _).2
    { url := "u1", size := 10, width := 1, height := 2 }
    { url := "u2", size := 20, width := 3, height := 4 } rfl



/-- C2: for every assignment of probe outcomes, the guesswork strategy's
`iter_content`, fully consumed, issues one HEAD probe per variant-table entry
in table order regardless of earlier results, yields exactly one content per
successful probe (preserving table order) and none for failed probes, and
each yielded content's size is the value of the response's content-length
header, or 0 when that header is absent.  In particular when exactly the
probes of table indices 0 and 3 succeed, exactly those two contents are
yielded, in table order, and all 5 probes are still attempted. -/
theorem C2_guesswork_probe_loop (url gfycat_id : String)
    (head : String → Guesswork.HeadResponse) :
    (Guesswork.iter_content url gfycat_id head).1 =
      [ "https://giant.gfycat.com/" ++ gfycat_id ++ ".mp4",
        "https://giant.gfycat.com/" ++ gfycat_id ++ ".webm",
        "https://thumbs.gfycat.com/" ++ gfycat_id ++ "-size_restricted.gif",
        "https://thumbs.gfycat.com/" ++ gfycat_id ++ "-small.gif",
        "https://thumbs.gfycat.com/" ++ gfycat_id ++ "-max-1mb.gif" ] ∧
    List.Forall₂
      (fun c ce =>
        c.id = build_content_id gfycat_id ce.type ∧
        c.url = url ∧
        c.size = (head (formatTemplate ce.url_template gfycat_id)).content_length.getD 0 ∧
        c.type = ce.mimetype ∧ c.quality = ce.quality ∧
        c.resources =
          [{ method := .GET, url := formatTemplate ce.url_template gfycat_id }] ∧
        c.meta = { id := gfycat_id } ∧ c.extra = none)
      (Guesswork.iter_content url gfycat_id head).2
      (CONTENT_ENTRIES.filter fun ce =>
        (head (formatTemplate ce.url_template gfycat_id)).ok) ∧
    (CONTENT_ENTRIES.map
        (fun ce => (head (formatTemplate ce.url_template gfycat_id)).ok) =
          [true, false, false, true, false] →
      (Guesswork.iter_content url gfycat_id head).2.map
          (fun c => (c.id, c.type, c.quality)) =
        [(build_content_id gfycat_id "mp4", "video/mp4", (1 : ℚ)),
         (build_content_id gfycat_id "max2mbGif", "image/gif", (1 / 10 : ℚ))] ∧
      (Guesswork.iter_content url gfycat_id head).1.length = 5) := by
  have hunf : Guesswork.iter_content url gfycat_id head =
      Guesswork.iter_content_loop url gfycat_id head { id := gfycat_id }
        CONTENT_ENTRIES := rfl
  refine ⟨?_, ?_, ?_⟩
  · rw [hunf, iter_content_loop_probes]
    simp [CONTENT_ENTRIES, formatTemplate_mp4, formatTemplate_webm,
      formatTemplate_5mb, formatTemplate_2mb, formatTemplate_1mb]
  · rw [hunf]
    exact iter_content_loop_forall₂ url gfycat_id head { id := gfycat_id }
      CONTENT_ENTRIES
  · intro hmap
    simp only [CONTENT_ENTRIES, List.map_cons, List.map_nil,
      List.cons.injEq, and_true] at hmap
    obtain ⟨h0, h1, h2, h3, h4⟩ := hmap
    constructor
    · rw [hunf]
      simp only [CONTENT_ENTRIES, Guesswork.iter_content_loop, h0, h1, h2, h3, h4]
      norm_num
    · rw [hunf, iter_content_loop_probes]
      simp [CONTENT_ENTRIES]

/-- Witness for C2 at concrete probe outcomes (indices 0 and 3 succeed). -/
theorem C2_guesswork_probe_loop_witness :
    (Guesswork.iter_content "https://gfycat.com/abc" "abc"
        (fun u =>
          if u = "https://giant.gfycat.com/abc.mp4" then
            { ok := true, content_length := some 11 }
          else if u = "https://thumbs.gfycat.com/abc-small.gif" then
            { ok := true, content_length := none }
          else { ok := false, content_length := none })).2.map
        (fun c => (c.id, c.type, c.quality)) =
      [(build_content_id "abc" "mp4", "video/mp4", (1 : ℚ)),
       (build_content_id "abc" "max2mbGif", "image/gif", (1 / 10 : ℚ))] ∧
    (Guesswork.iter_content "https://gfycat.com/abc" "abc"
        (fun u =>
          if u = "https://giant.gfycat.com/abc.mp4" then
            { ok := true, content_length := some 11 }
          else if u = "https://thumbs.gfycat.com/abc-small.gif" then
            { ok := true, content_length := none }
          else { ok := false, content_length := none })).1.length = 5 :=
  (C2_guesswork_probe_loop "https://gfycat.com/abc" "abc" _).2.2 (by decide)



/-- C9: every content yielded by either resolution strategy carries a
resources list containing exactly one HTTP resource, and that resource's
method is GET — which is what makes the manifest merge degenerate to the
rename of a single artifact. -/
theorem C9_single_get_resource :
    (∀ gfycat_id resp c, c ∈ Api.iter_content gfycat_id resp →
      ∃ u, c.resources = [{ method := HttpMethod.GET, url := u }]) ∧
    (∀ url gfycat_id head c, c ∈ (Guesswork.iter_content url gfycat_id head).2 →
      ∃ u, c.resources = [{ method := HttpMethod.GET, url := u }]) := by
  constructor
  · intro gfycat_id resp c hc
    obtain ⟨ce, _, data, _, _, hres, _⟩ :=
      forall₂_mem_left (api_content_table_forall₂ gfycat_id resp) c hc
    exact ⟨data.url, hres⟩
  · intro url gfycat_id head c hc
    have hc' : c ∈ (Guesswork.iter_content_loop url gfycat_id head
        { id := gfycat_id } CONTENT_ENTRIES).2 := hc
    obtain ⟨ce, _, hR⟩ :=
      forall₂_mem_left
        (iter_content_loop_forall₂ url gfycat_id head { id := gfycat_id }
          CONTENT_ENTRIES) c hc'
    exact ⟨formatTemplate ce.url_template gfycat_id, hR.2.2.2.2.2.1⟩

/-- Witness for C9 at a concrete API payload and its single yielded content. -/
theorem C9_single_get_resource_witness :
    ∃ u,
      ({ id := build_content_id "abc" "mp4"
         url := formatGfycatUrl "xyz"
         size := 5
         type := "video/mp4"
         quality := 1.0
         resources := [{ method := HttpMethod.GET, url := "direct" }]
         meta := { id := "xyz", description := some "d", publisher := some "u"
                   published_at := some 3, thumbnail := some "p" }
         extra := some { gfyItem :=
           { gfyId := "xyz", createDate := 3, description := "d"
             username := "u", posterUrl := "p"
             content_urls := fun t =>
               if t = "mp4" then some { url := "direct", size := 5, width := 1, height := 1 }
               else none } } } : Content).resources =
        [{ method := HttpMethod.GET, url := u }] :=
  C9_single_get_resource.1 "abc"
    { gfyItem :=
      { gfyId := "xyz", createDate := 3, description := "d"
        username := "u", posterUrl := "p"
        content_urls := fun t =>
          if t = "mp4" then some { url := "direct", size := 5, width := 1, height := 1 }
          else none } } _
    (by
      rw [show Api.iter_content "abc"
          { gfyItem :=
            { gfyId := "xyz", createDate := 3, description := "d"
              username := "u", posterUrl := "p"
              content_urls := fun t =>
                if t = "mp4" then some { url := "direct", size := 5, width := 1, height := 1 }
                else none } } =
          [{ id := build_content_id "abc" "mp4"
             url := formatGfycatUrl "xyz"
             size := 5
             type := "video/mp4"
             quality := 1.0
             resources := [{ method := HttpMethod.GET, url := "direct" }]
             meta := { id := "xyz", description := some "d", publisher := some "u"
                       published_at := some 3, thumbnail := some "p" }
             extra := some { gfyItem :=
               { gfyId := "xyz", createDate := 3, description := "d"
                 username := "u", posterUrl := "p"
                 content_urls := fun t =>
                   if t = "mp4" then some { url := "direct", size := 5, width := 1, height := 1 }
                   else none } } }] from rfl]
      exact List.mem_singleton.mpr rfl)

/-- C3: `get_content_iterator` delegates to the API strategy when the API is
enabled, raises the configuration error when the API is enabled but the
client id or client secret is missing from the environment, and delegates to
the guesswork strategy otherwise; `is_api_enabled` is true exactly when the
designated flag's lowercased value is "1" or "true" (and unset means
disabled). -/
theorem C3_strategy_selection (env : String → Option String) :
    (is_api_enabled env = true ↔
      strLower ((env ENV_API_ENABLED).getD "") = "1" ∨
      strLower ((env ENV_API_ENABLED).getD "") = "true") ∧
    (env ENV_API_ENABLED = none → is_api_enabled env = false) ∧
    (∀ token secret, is_api_enabled env = true → env ENV_API_TOKEN = some token →
      env ENV_API_SECRET = some secret →
      get_content_iterator env = .ok (.api token secret)) ∧
    (is_api_enabled env = true →
      (env ENV_API_TOKEN = none ∨ env ENV_API_SECRET = none) →
      get_content_iterator env = .error .configError) ∧
    (is_api_enabled env = false → get_content_iterator env = .ok .guesswork) := by
  refine ⟨?_, ?_, ?_, ?_, ?_⟩
  · simp [is_api_enabled]
  · intro h
    rw [is_api_enabled, h]
    decide
  · intro token secret h ht hs
    simp [get_content_iterator, h, get_api_tokens, ht, hs]
  · intro h hmiss
    rcases hmiss with hm | hm <;>
      · simp only [get_content_iterator, h, if_true]
        cases ht : env ENV_API_TOKEN <;> cases hs : env ENV_API_SECRET <;>
          simp_all [get_api_tokens]
  · intro h
    simp [get_content_iterator, h]

/-- Witness for C3 with a concrete environment (API enabled, secret missing). -/
theorem C3_strategy_selection_witness :
    get_content_iterator
        (fun name => if name = ENV_API_ENABLED then some "TRUE" else none) =
      .error .configError :=
  (C3_strategy_selection _).2.2.2.1 (by decide) (Or.inl (by decide))

/-- C4: `get_bearer_token` returns a cached token without any auth request;
on a cache miss it performs exactly one auth request, stores the token with
TTL `expires_in` (3600 when absent) and returns it; a second call while the
stored entry is fresh performs no further auth request (so two sequential
calls from an empty cache perform exactly one), and a call at or after the
stored entry's expiry performs a new auth request. -/
theorem C4_bearer_token_cache (now : Nat) (authHttp : Api.AuthHttp)
    (cache : Api.TokenCache) :
    (∀ tok, Api.cache_get cache now = some tok →
      Api.get_bearer_token now authHttp cache = .ok (tok, cache, 0)) ∧
    (Api.cache_get cache now = none → authHttp.ok = true →
      authHttp.payload.access_token ≠ "" →
      Api.get_bearer_token now authHttp cache =
        .ok (authHttp.payload.access_token,
          Api.cache_set authHttp.payload.access_token
            (authHttp.payload.expires_in.getD 3600) now, 1)) ∧
    (∀ value ttl now₂ (authHttp₂ : Api.AuthHttp), now₂ < now + ttl →
      Api.get_bearer_token now₂ authHttp₂ (Api.cache_set value ttl now) =
        .ok (value, Api.cache_set value ttl now, 0)) ∧
    (∀ value ttl now₃ (authHttp₂ : Api.AuthHttp), now + ttl ≤ now₃ →
      authHttp₂.ok = true → authHttp₂.payload.access_token ≠ "" →
      Api.get_bearer_token now₃ authHttp₂ (Api.cache_set value ttl now) =
        .ok (authHttp₂.payload.access_token,
          Api.cache_set authHttp₂.payload.access_token
            (authHttp₂.payload.expires_in.getD 3600) now₃, 1)) := by
  refine ⟨?_, ?_, ?_, ?_⟩
  · intro tok h
    simp [Api.get_bearer_token, h]
  · intro h hok hne
    simp [Api.get_bearer_token, h, Api.get_auth_response, hok, hne]
  · intro value ttl now₂ authHttp₂ hlt
    simp [Api.get_bearer_token, Api.cache_get, Api.cache_set, hlt]
  · intro value ttl now₃ authHttp₂ hge hok hne
    simp [Api.get_bearer_token, Api.cache_get, Api.cache_set,
      Nat.not_lt.mpr hge, Api.get_auth_response, hok, hne]

/-- Witness for C4: a miss-then-hit pair of calls from an empty cache, and a
post-expiry call, at concrete instants. -/
theorem C4_bearer_token_cache_witness :
    Api.get_bearer_token 100
        { ok := true, payload :=
          { token_type := "bearer", scope := "", expires_in := some 60
            access_token := "tok" } } { entry := none } =
      .ok ("tok", Api.cache_set "tok" 60 100, 1) ∧
    Api.get_bearer_token 159
        { ok := true, payload :=
          { token_type := "bearer", scope := "", expires_in := none
            access_token := "tok2" } } (Api.cache_set "tok" 60 100) =
      .ok ("tok", Api.cache_set "tok" 60 100, 0) ∧
    Api.get_bearer_token 160
        { ok := true, payload :=
          { token_type := "bearer", scope := "", expires_in := none
            access_token := "tok2" } } (Api.cache_set "tok" 60 100) =
      .ok ("tok2", Api.cache_set "tok2" 3600 160, 1) :=
  ⟨(C4_bearer_token_cache 100
      { ok := true, payload :=
        { token_type := "bearer", scope := "", expires_in := some 60
          access_token := "tok" } } { entry := none }).2.1 rfl rfl (by decide),
   (C4_bearer_token_cache 100
      { ok := true, payload :=
        { token_type := "bearer", scope := "", expires_in := some 60
          access_token := "tok" } } { entry := none }).2.2.1 "tok" 60 159
      { ok := true, payload :=
        { token_type := "bearer", scope := "", expires_in := none
          access_token := "tok2" } } (by decide),
   (C4_bearer_token_cache 100
      { ok := true, payload :=
        { token_type := "bearer", scope := "", expires_in := some 60
          access_token := "tok" } } { entry := none }).2.2.2 "tok" 60 160
      { ok := true, payload :=
        { token_type := "bearer", scope := "", expires_in := none
          access_token := "tok2" } } (by decide) rfl (by decide)⟩

/-- C6 counterexample: a successful OAuth response whose payload carries an
empty access token is returned unchanged by `get_auth_response` — the
function does not fail on it, contrary to the claim. -/
theorem C6_empty_token_counterexample :
    Api.get_auth_response
        { ok := true
          payload := { token_type := "bearer", scope := "", expires_in := some 3600
                       access_token := "" } } =
      .ok { token_type := "bearer", scope := "", expires_in := some 3600
            access_token := "" } := rfl

/-- C6 (amended): `get_auth_response` fails exactly when the OAuth response
is not successful and otherwise returns the payload unchanged, even when the
access token is empty; the non-empty-token check is performed by its caller
`get_bearer_token`, which fails with the auth error when, on a cache miss,
the successful payload carries an empty access token. -/
theorem C6_auth_error_behaviour :
    (∀ r : Api.AuthHttp, r.ok = false →
      Api.get_auth_response r = .error .authError) ∧
    (∀ r : Api.AuthHttp, r.ok = true → Api.get_auth_response r = .ok r.payload) ∧
    (∀ now (r : Api.AuthHttp) cache, Api.cache_get cache now = none →
      r.ok = true → r.payload.access_token = "" →
      Api.get_bearer_token now r cache = .error .authError) := by
  refine ⟨?_, ?_, ?_⟩
  · intro r h
    simp [Api.get_auth_response, h]
  · intro r h
    simp [Api.get_auth_response, h]
  · intro now r cache hc hok he
    simp [Api.get_bearer_token, hc, Api.get_auth_response, hok, he]

/-- Witness for the amended C6 at a concrete empty-token response. -/
theorem C6_auth_error_behaviour_witness :
    Api.get_bearer_token 0
        { ok := true
          payload := { token_type := "", scope := "", expires_in := none
                       access_token := "" } }
        { entry := none } = .error .authError :=
  C6_auth_error_behaviour.2.2 0
    { ok := true
      payload := { token_type := "", scope := "", expires_in := none
                   access_token := "" } }
    { entry := none } rfl rfl rfl

/-- C7: `merge_manifest` fails exactly when the manifest does not hold
exactly one artifact; with exactly one artifact it renames that artifact's
local file to the target path and returns the target path unchanged. -/
theorem C7_merge_manifest (manifest : Plugin.Manifest) (to_path : String) :
    ((∃ e, Plugin.merge_manifest manifest to_path = .error e) ↔
      manifest.artifacts.length ≠ 1) ∧
    (∀ a, manifest.artifacts = [a] →
      Plugin.merge_manifest manifest to_path =
        .ok { result_path := to_path, renames := [(a.2, to_path)] }) := by
  constructor
  · constructor
    · rintro ⟨e, he⟩ hlen
      rw [Plugin.merge_manifest, dif_pos hlen] at he
      cases he
    · intro hlen
      exact ⟨.validationError, by rw [Plugin.merge_manifest, dif_neg hlen]⟩
  · rintro ⟨a₁, a₂⟩ ha
    simp [Plugin.merge_manifest, ha]

/-- Witness for C7: one artifact merges as a rename; zero or two artifacts
fail. -/
theorem C7_merge_manifest_witness :
    Plugin.merge_manifest { artifacts := [("res", "tmp")] } "out" =
      .ok { result_path := "out", renames := [("tmp", "out")] } ∧
    (∃ e, Plugin.merge_manifest { artifacts := [] } "out" = .error e) ∧
    (∃ e, Plugin.merge_manifest
        { artifacts := [("r1", "p1"), ("r2", "p2")] } "out" = .error e) :=
  ⟨(C7_merge_manifest { artifacts := [("res", "tmp")] } "out").2 ("res", "tmp") rfl,
   (C7_merge_manifest { artifacts := [] } "out").1.mpr (by decide),
   (C7_merge_manifest { artifacts := [("r1", "p1"), ("r2", "p2")] } "out").1.mpr
     (by decide)⟩

/-- C8: `build_content_id` is deterministic, maps `("abc", "mp4")` to
`gfycat-mp4-abc`, and is injective on (type, id) pairs whenever the type key
contains no hyphen (as all table type keys do). -/
theorem C8_content_id_deterministic_unique :
    build_content_id "abc" "mp4" = "gfycat-mp4-abc" ∧
    (∀ gfycat_id type_key : String,
      build_content_id gfycat_id type_key = build_content_id gfycat_id type_key) ∧
    (∀ t₁ t₂ i₁ i₂ : String, (∀ c ∈ t₁.data, c ≠ '-') → (∀ c ∈ t₂.data, c ≠ '-') →
      build_content_id i₁ t₁ = build_content_id i₂ t₂ → t₁ = t₂ ∧ i₁ = i₂) := by
  refine ⟨rfl, fun _ _ => rfl, ?_⟩
  intro t₁ t₂ i₁ i₂ h₁ h₂ heq
  have hd := congrArg String.data heq
  simp only [build_content_id, string_data_append, List.append_assoc] at hd
  simp only [List.cons_append, List.nil_append, List.singleton_append,
    List.cons.injEq, true_and] at hd
  obtain ⟨e₁, e₂⟩ := split_at_first_eq '-' _ _ _ _ h₁ h₂ hd
  exact ⟨string_eq_of_data e₁, string_eq_of_data e₂⟩

/-- Witness for C8: distinct hyphen-free type keys give distinct content
ids. -/
theorem C8_content_id_deterministic_unique_witness :
    build_content_id "abc" "mp4" ≠ build_content_id "abc" "webm" := fun h =>
  absurd
    ((C8_content_id_deterministic_unique.2.2 "mp4" "webm" "abc" "abc"
      (by decide) (by decide) h).1)
    (by decide)

/-- C5 (code evaluation): the compiled basic pattern reads
`(?:gifs/detail)?` with no slash after `detail`, so the real detail-page URL
`https://gfycat.com/gifs/detail/<id>` matches neither pattern and
`get_url_id` returns none — while the slashless `gifs/detail<id>` text the
pattern does accept yields `<id>`, and a plain item URL yields its id. -/
theorem C5_detail_url_rejected :
    get_url_id "https://gfycat.com/gifs/detail/abc" = none ∧
    is_known_url "https://gfycat.com/gifs/detail/abc" = false ∧
    get_url_id "https://gfycat.com/gifs/detailabc" = some "abc" ∧
    get_url_id "https://gfycat.com/abc" = some "abc" := by
  refine ⟨?_, ?_, ?_, ?_⟩ <;> decide

/-- C10: at most one of the two URL patterns matches any input (the basic
pattern admits no dot after the host while the raw pattern requires one), so
`get_url_id` is independent of the iteration order of the pattern set and
`is_known_url` is a deterministic function of the URL. -/
theorem C10_pattern_order_irrelevant :
    (∀ s : List Char, ¬∃ v₁ v₂, reFullMatch BASIC_PATTERN s = some v₁ ∧
      reFullMatch RAW_PATTERN s = some v₂) ∧
    (∀ url : String, get_url_id url = get_url_id_alt url) ∧
    (∀ url : String, is_known_url url = is_known_url_alt url) := by
  have horder : ∀ url : String, get_url_id url = get_url_id_alt url := by
    intro url
    rw [get_url_id, get_url_id_alt]
    cases hb : reFullMatch BASIC_PATTERN url.data with
    | some capB =>
      cases hr : reFullMatch RAW_PATTERN url.data with
      | some capR => exact absurd ⟨capB, capR, hb, hr⟩ (patterns_disjoint url.data)
      | none => simp [get_url_id_over, hb, hr]
    | none =>
      cases hr : reFullMatch RAW_PATTERN url.data <;>
        simp [get_url_id_over, hb, hr]
  exact ⟨patterns_disjoint, horder, fun url => by
    rw [is_known_url, is_known_url_alt, horder url]⟩

/-- Witness for C10 at a concrete raw CDN URL. -/
theorem C10_pattern_order_irrelevant_witness :
    get_url_id "https://giant.gfycat.com/abcXYZ.mp4" =
      get_url_id_alt "https://giant.gfycat.com/abcXYZ.mp4" ∧
    get_url_id "https://giant.gfycat.com/abcXYZ.mp4" = some "abcXYZ" :=
  ⟨C10_pattern_order_irrelevant.2.1 _, by decide⟩

end Gfy
